import Mathlib

/-!
go-shopify: the custom collection resource binding (`customcollection.go`).

A shallow embedding of `customcollection.go` and the properties of its operations.

* Go `int` is embedded as `Int`; the file performs no arithmetic on identifiers.
* A Go pointer `*T` is `Option T` (`none` is `nil`); a Go slice `[]T` is `Slice T`, an
  `Option (List T)` whose `none` is the nil slice, so a nil slice and an empty non-nil slice
  stay distinct.
* A Go `error` is `Option Err` (`none` is `nil`).
* The types `time.Time`, `Image`, `Metafield` and the dynamic type behind the `options`
  argument are declared outside the file; they are type parameters here.
* The `*Client` collaborator and the methods of `MetafieldAPIOp` are declared outside the file.
  Their behaviour is a parameter (`Client`, `MetafieldAPI`): arbitrary functions over a world state.
  Every call made on them is appended to a call trace, so that "which calls, how many, with
  which arguments" is a statement about the trace.
-/

namespace GoShopify

/-! ## `fmt.Sprintf` for the verbs the file uses -/

/-- Operand of `fmt.Sprintf`: the file passes strings and ints only. -/
inductive Arg where
  | str (s : String)
  | int (n : Int)

/-- Decimal digits of an unsigned value, most significant first, as `fmt` produces them:
the last digit is `u % 10`, the digits before it are those of `u / 10`, and a value below
ten is a single digit. -/
def fmtUnsigned (u : Nat) : List Char :=
  if h : u < 10 then [Char.ofNat (48 + u)]
  else fmtUnsigned (u / 10) ++ [Char.ofNat (48 + u % 10)]
decreasing_by omega

/-- The verb `%d` on an int: a minus sign for a negative value, then the digits of the
magnitude. -/
def fmtInteger (n : Int) : List Char :=
  if n < 0 then '-' :: fmtUnsigned n.natAbs else fmtUnsigned n.natAbs

/-- Format interpreter over the characters of the format. `%s` consumes a string operand,
`%d` an int operand, `%%` is a percent sign, every other character is copied. Other verbs,
flags, and operand mismatches do not occur in the file and are outside this model. -/
def sprintfAux : List Char → List Arg → List Char
  | '%' :: 's' :: cs, Arg.str s :: as => s.data ++ sprintfAux cs as
  | '%' :: 'd' :: cs, Arg.int n :: as => fmtInteger n ++ sprintfAux cs as
  | '%' :: '%' :: cs, as => '%' :: sprintfAux cs as
  | c :: cs, as => c :: sprintfAux cs as
  | [], _ => []

/-- Embedding of `fmt.Sprintf(format, args...)`. -/
def Sprintf (format : String) (args : List Arg) : String :=
  String.mk (sprintfAux format.data args)

/-- The decimal numeral of an integer: an optional minus sign and the base ten digits
without leading zeros. -/
def decimal (n : Int) : String := toString n

/-! ## Data model -/

/-- Go slice: `none` is the nil slice, `some xs` a non-nil slice with elements `xs`. -/
abbrev Slice (α : Type) := Option (List α)

/-- Go `len` of a slice: the nil slice has length zero. -/
def Slice.len {α : Type} : Slice α → Nat
  | none => 0
  | some xs => xs.length

/-- Go `const customCollectionsBasePath`. -/
def customCollectionsBasePath : String := "admin/custom_collections"

/-- Go `const customCollectionsResourceName`. -/
def customCollectionsResourceName : String := "collections"

/-- Go `type CustomCollection struct`. -/
structure CustomCollection (Time Image Metafield : Type) where
  ID : Int
  Handle : String
  Title : String
  UpdatedAt : Option Time
  BodyHTML : String
  SortOrder : String
  TemplateSuffix : String
  Image : Image
  Published : Bool
  PublishedAt : Option Time
  PublishedScope : String
  Metafields : Slice Metafield

/-- Go `type CustomCollectionResource struct`: the envelope of a single collection. Its zero
value, which `new(CustomCollectionResource)` yields, has a nil `Collection`. -/
structure CustomCollectionResource (Time Image Metafield : Type) where
  Collection : Option (CustomCollection Time Image Metafield) := none

/-- Go `type CustomCollectionsResource struct`: the envelope of a sequence of collections.
Its zero value has a nil `Collections`. -/
structure CustomCollectionsResource (Time Image Metafield : Type) where
  Collections : Slice (CustomCollection Time Image Metafield) := none

/-- Identity of a `*Client` pointer. -/
abbrev ClientRef := Nat

/-- Go `type CustomCollectionAPIOp struct`. -/
structure CustomCollectionAPIOp where
  client : ClientRef
deriving DecidableEq

/-- The struct `MetafieldAPIOp` as the file's composite literals build it, with the three
fields they set. -/
structure MetafieldAPIOp where
  client : ClientRef
  resource : String
  resourceID : Int
deriving DecidableEq

/-! ## The collaborators and the call trace -/

/-- Dynamic type behind the `resource interface{}` argument of the client's methods: the
file passes a pointer to one of its two envelope types. -/
inductive ResKind where
  | collection
  | collections
deriving DecidableEq

/-- The envelope type a `ResKind` stands for. -/
def ResKind.ty (Time Image Metafield : Type) : ResKind → Type
  | ResKind.collection => CustomCollectionResource Time Image Metafield
  | ResKind.collections => CustomCollectionsResource Time Image Metafield

/-- Behaviour of the methods of `*Client` that the file calls. Each takes the receiver, the
arguments of the Go method and the world before the call; a method that is handed a pointer
to an envelope takes the envelope's value before the call and returns its value after. -/
structure Client (Time Image Metafield Options Err World : Type) where
  Get : ClientRef → String → (k : ResKind) → k.ty Time Image Metafield → Options → World →
    (k.ty Time Image Metafield × Option Err) × World
  Count : ClientRef → String → Options → World → (Int × Option Err) × World
  Post : ClientRef → String → CustomCollectionResource Time Image Metafield →
    CustomCollectionResource Time Image Metafield → World →
    (CustomCollectionResource Time Image Metafield × Option Err) × World
  Put : ClientRef → String → CustomCollectionResource Time Image Metafield →
    CustomCollectionResource Time Image Metafield → World →
    (CustomCollectionResource Time Image Metafield × Option Err) × World
  Delete : ClientRef → String → World → Option Err × World

/-- Behaviour of the six methods of `*MetafieldAPIOp`, on the binding they are called on. -/
structure MetafieldAPI (Metafield Options Err World : Type) where
  List : MetafieldAPIOp → Options → World → (Slice Metafield × Option Err) × World
  Count : MetafieldAPIOp → Options → World → (Int × Option Err) × World
  Get : MetafieldAPIOp → Int → Options → World → (Option Metafield × Option Err) × World
  Create : MetafieldAPIOp → Metafield → World → (Option Metafield × Option Err) × World
  Update : MetafieldAPIOp → Metafield → World → (Option Metafield × Option Err) × World
  Delete : MetafieldAPIOp → Int → World → Option Err × World

/-- A call made on a collaborator, with the receiver and the arguments passed. -/
inductive Call (Time Image Metafield Options : Type) where
  | clientGet (c : ClientRef) (path : String) (k : ResKind) (options : Options)
  | clientCount (c : ClientRef) (path : String) (options : Options)
  | clientPost (c : ClientRef) (path : String)
      (data : CustomCollectionResource Time Image Metafield)
  | clientPut (c : ClientRef) (path : String)
      (data : CustomCollectionResource Time Image Metafield)
  | clientDelete (c : ClientRef) (path : String)
  | metafieldList (api : MetafieldAPIOp) (options : Options)
  | metafieldCount (api : MetafieldAPIOp) (options : Options)
  | metafieldGet (api : MetafieldAPIOp) (metafieldID : Int) (options : Options)
  | metafieldCreate (api : MetafieldAPIOp) (metafield : Metafield)
  | metafieldUpdate (api : MetafieldAPIOp) (metafield : Metafield)
  | metafieldDelete (api : MetafieldAPIOp) (metafieldID : Int)

/-- The sequence of calls made so far, oldest first. -/
abbrev Trace (Time Image Metafield Options : Type) := List (Call Time Image Metafield Options)

/-- Program state: the receiver `*s`, the world the collaborators act on, and the calls made
on the collaborators so far. -/
structure State (Time Image Metafield Options World : Type) where
  self : CustomCollectionAPIOp
  world : World
  trace : Trace Time Image Metafield Options

section Operations

variable {Time Image Metafield Options Err World : Type}

/-- The call `c.Get(path, resource, options)`: runs the client and records the call. -/
def callGet (cl : Client Time Image Metafield Options Err World) (c : ClientRef)
    (path : String) (k : ResKind) (resource : k.ty Time Image Metafield) (options : Options)
    (st : State Time Image Metafield Options World) :
    (k.ty Time Image Metafield × Option Err) × State Time Image Metafield Options World :=
  let out := cl.Get c path k resource options st.world
  (out.1, { st with world := out.2, trace := st.trace ++ [Call.clientGet c path k options] })

/-- The call `c.Count(path, options)`. -/
def callCount (cl : Client Time Image Metafield Options Err World) (c : ClientRef)
    (path : String) (options : Options) (st : State Time Image Metafield Options World) :
    (Int × Option Err) × State Time Image Metafield Options World :=
  let out := cl.Count c path options st.world
  (out.1, { st with world := out.2, trace := st.trace ++ [Call.clientCount c path options] })

/-- The call `c.Post(path, data, resource)`. -/
def callPost (cl : Client Time Image Metafield Options Err World) (c : ClientRef)
    (path : String) (data resource : CustomCollectionResource Time Image Metafield)
    (st : State Time Image Metafield Options World) :
    (CustomCollectionResource Time Image Metafield × Option Err) ×
      State Time Image Metafield Options World :=
  let out := cl.Post c path data resource st.world
  (out.1, { st with world := out.2, trace := st.trace ++ [Call.clientPost c path data] })

/-- The call `c.Put(path, data, resource)`. -/
def callPut (cl : Client Time Image Metafield Options Err World) (c : ClientRef)
    (path : String) (data resource : CustomCollectionResource Time Image Metafield)
    (st : State Time Image Metafield Options World) :
    (CustomCollectionResource Time Image Metafield × Option Err) ×
      State Time Image Metafield Options World :=
  let out := cl.Put c path data resource st.world
  (out.1, { st with world := out.2, trace := st.trace ++ [Call.clientPut c path data] })

/-- The call `c.Delete(path)`. -/
def callDelete (cl : Client Time Image Metafield Options Err World) (c : ClientRef)
    (path : String) (st : State Time Image Metafield Options World) :
    Option Err × State Time Image Metafield Options World :=
  let out := cl.Delete c path st.world
  (out.1, { st with world := out.2, trace := st.trace ++ [Call.clientDelete c path] })

/-- Go `func (s *CustomCollectionAPIOp) List(options interface{})`. -/
def CustomCollectionAPIOp.List (cl : Client Time Image Metafield Options Err World)
    (options : Options) (st : State Time Image Metafield Options World) :
    (Slice (CustomCollection Time Image Metafield) × Option Err) ×
      State Time Image Metafield Options World :=
  let path := Sprintf "%s.json" [Arg.str customCollectionsBasePath]
  let resource : CustomCollectionsResource Time Image Metafield := {}
  let r := callGet cl st.self.client path ResKind.collections resource options st
  let resource : CustomCollectionsResource Time Image Metafield := r.1.1
  let err := r.1.2
  ((resource.Collections, err), r.2)

/-- Go `func (s *CustomCollectionAPIOp) Count(options interface{})`. -/
def CustomCollectionAPIOp.Count (cl : Client Time Image Metafield Options Err World)
    (options : Options) (st : State Time Image Metafield Options World) :
    (Int × Option Err) × State Time Image Metafield Options World :=
  let path := Sprintf "%s/count.json" [Arg.str customCollectionsBasePath]
  callCount cl st.self.client path options st

/-- Go `func (s *CustomCollectionAPIOp) Get(collectionID int, options interface{})`. -/
def CustomCollectionAPIOp.Get (cl : Client Time Image Metafield Options Err World)
    (collectionID : Int) (options : Options) (st : State Time Image Metafield Options World) :
    (Option (CustomCollection Time Image Metafield) × Option Err) ×
      State Time Image Metafield Options World :=
  let path := Sprintf "%s/%d.json" [Arg.str customCollectionsBasePath, Arg.int collectionID]
  let resource : CustomCollectionResource Time Image Metafield := {}
  let r := callGet cl st.self.client path ResKind.collection resource options st
  let resource : CustomCollectionResource Time Image Metafield := r.1.1
  let err := r.1.2
  ((resource.Collection, err), r.2)

/-- Go `func (s *CustomCollectionAPIOp) Create(collection CustomCollection)`. -/
def CustomCollectionAPIOp.Create (cl : Client Time Image Metafield Options Err World)
    (collection : CustomCollection Time Image Metafield)
    (st : State Time Image Metafield Options World) :
    (Option (CustomCollection Time Image Metafield) × Option Err) ×
      State Time Image Metafield Options World :=
  let path := Sprintf "%s.json" [Arg.str customCollectionsBasePath]
  let wrappedData : CustomCollectionResource Time Image Metafield :=
    { Collection := some collection }
  let resource : CustomCollectionResource Time Image Metafield := {}
  let r := callPost cl st.self.client path wrappedData resource st
  let resource := r.1.1
  let err := r.1.2
  ((resource.Collection, err), r.2)

/-- Go `func (s *CustomCollectionAPIOp) Update(collection CustomCollection)`. -/
def CustomCollectionAPIOp.Update (cl : Client Time Image Metafield Options Err World)
    (collection : CustomCollection Time Image Metafield)
    (st : State Time Image Metafield Options World) :
    (Option (CustomCollection Time Image Metafield) × Option Err) ×
      State Time Image Metafield Options World :=
  let path := Sprintf "%s/%d.json" [Arg.str customCollectionsBasePath, Arg.int collection.ID]
  let wrappedData : CustomCollectionResource Time Image Metafield :=
    { Collection := some collection }
  let resource : CustomCollectionResource Time Image Metafield := {}
  let r := callPut cl st.self.client path wrappedData resource st
  let resource := r.1.1
  let err := r.1.2
  ((resource.Collection, err), r.2)

/-- Go `func (s *CustomCollectionAPIOp) Delete(collectionID int) error`. -/
def CustomCollectionAPIOp.Delete (cl : Client Time Image Metafield Options Err World)
    (collectionID : Int) (st : State Time Image Metafield Options World) :
    Option Err × State Time Image Metafield Options World :=
  callDelete cl st.self.client
    (Sprintf "%s/%d.json" [Arg.str customCollectionsBasePath, Arg.int collectionID]) st

/-- The call `metafieldAPI.List(options)`: runs the binding's method and records the call. -/
def callMetafieldList (mf : MetafieldAPI Metafield Options Err World) (api : MetafieldAPIOp)
    (options : Options) (st : State Time Image Metafield Options World) :
    (Slice Metafield × Option Err) × State Time Image Metafield Options World :=
  let out := mf.List api options st.world
  (out.1, { st with world := out.2, trace := st.trace ++ [Call.metafieldList api options] })

/-- The call `metafieldAPI.Count(options)`. -/
def callMetafieldCount (mf : MetafieldAPI Metafield Options Err World) (api : MetafieldAPIOp)
    (options : Options) (st : State Time Image Metafield Options World) :
    (Int × Option Err) × State Time Image Metafield Options World :=
  let out := mf.Count api options st.world
  (out.1, { st with world := out.2, trace := st.trace ++ [Call.metafieldCount api options] })

/-- The call `metafieldAPI.Get(metafieldID, options)`. -/
def callMetafieldGet (mf : MetafieldAPI Metafield Options Err World) (api : MetafieldAPIOp)
    (metafieldID : Int) (options : Options) (st : State Time Image Metafield Options World) :
    (Option Metafield × Option Err) × State Time Image Metafield Options World :=
  let out := mf.Get api metafieldID options st.world
  (out.1, { st with world := out.2,
                    trace := st.trace ++ [Call.metafieldGet api metafieldID options] })

/-- The call `metafieldAPI.Create(metafield)`. -/
def callMetafieldCreate (mf : MetafieldAPI Metafield Options Err World) (api : MetafieldAPIOp)
    (metafield : Metafield) (st : State Time Image Metafield Options World) :
    (Option Metafield × Option Err) × State Time Image Metafield Options World :=
  let out := mf.Create api metafield st.world
  (out.1, { st with world := out.2, trace := st.trace ++ [Call.metafieldCreate api metafield] })

/-- The call `metafieldAPI.Update(metafield)`. -/
def callMetafieldUpdate (mf : MetafieldAPI Metafield Options Err World) (api : MetafieldAPIOp)
    (metafield : Metafield) (st : State Time Image Metafield Options World) :
    (Option Metafield × Option Err) × State Time Image Metafield Options World :=
  let out := mf.Update api metafield st.world
  (out.1, { st with world := out.2, trace := st.trace ++ [Call.metafieldUpdate api metafield] })

/-- The call `metafieldAPI.Delete(metafieldID)`. -/
def callMetafieldDelete (mf : MetafieldAPI Metafield Options Err World) (api : MetafieldAPIOp)
    (metafieldID : Int) (st : State Time Image Metafield Options World) :
    Option Err × State Time Image Metafield Options World :=
  let out := mf.Delete api metafieldID st.world
  (out.1, { st with world := out.2, trace := st.trace ++ [Call.metafieldDelete api metafieldID] })

/-- Go `func (s *CustomCollectionAPIOp) ListMetafields(customCollectionID int, options interface{})`. -/
def CustomCollectionAPIOp.ListMetafields (mf : MetafieldAPI Metafield Options Err World)
    (customCollectionID : Int) (options : Options)
    (st : State Time Image Metafield Options World) :
    (Slice Metafield × Option Err) × State Time Image Metafield Options World :=
  let metafieldAPI : MetafieldAPIOp :=
    { client := st.self.client, resource := customCollectionsResourceName,
      resourceID := customCollectionID }
  callMetafieldList mf metafieldAPI options st

/-- Go `func (s *CustomCollectionAPIOp) CountMetafields(customCollectionID int, options interface{})`. -/
def CustomCollectionAPIOp.CountMetafields (mf : MetafieldAPI Metafield Options Err World)
    (customCollectionID : Int) (options : Options)
    (st : State Time Image Metafield Options World) :
    (Int × Option Err) × State Time Image Metafield Options World :=
  let metafieldAPI : MetafieldAPIOp :=
    { client := st.self.client, resource := customCollectionsResourceName,
      resourceID := customCollectionID }
  callMetafieldCount mf metafieldAPI options st

/-- Go `func (s *CustomCollectionAPIOp) GetMetafield(customCollectionID int, metafieldID int,
options interface{})`. -/
def CustomCollectionAPIOp.GetMetafield (mf : MetafieldAPI Metafield Options Err World)
    (customCollectionID : Int) (metafieldID : Int) (options : Options)
    (st : State Time Image Metafield Options World) :
    (Option Metafield × Option Err) × State Time Image Metafield Options World :=
  let metafieldAPI : MetafieldAPIOp :=
    { client := st.self.client, resource := customCollectionsResourceName,
      resourceID := customCollectionID }
  callMetafieldGet mf metafieldAPI metafieldID options st

/-- Go `func (s *CustomCollectionAPIOp) CreateMetafield(customCollectionID int,
metafield Metafield)`. -/
def CustomCollectionAPIOp.CreateMetafield (mf : MetafieldAPI Metafield Options Err World)
    (customCollectionID : Int) (metafield : Metafield)
    (st : State Time Image Metafield Options World) :
    (Option Metafield × Option Err) × State Time Image Metafield Options World :=
  let metafieldAPI : MetafieldAPIOp :=
    { client := st.self.client, resource := customCollectionsResourceName,
      resourceID := customCollectionID }
  callMetafieldCreate mf metafieldAPI metafield st

/-- Go `func (s *CustomCollectionAPIOp) UpdateMetafield(customCollectionID int,
metafield Metafield)`. -/
def CustomCollectionAPIOp.UpdateMetafield (mf : MetafieldAPI Metafield Options Err World)
    (customCollectionID : Int) (metafield : Metafield)
    (st : State Time Image Metafield Options World) :
    (Option Metafield × Option Err) × State Time Image Metafield Options World :=
  let metafieldAPI : MetafieldAPIOp :=
    { client := st.self.client, resource := customCollectionsResourceName,
      resourceID := customCollectionID }
  callMetafieldUpdate mf metafieldAPI metafield st

/-- Go `func (s *CustomCollectionAPIOp) DeleteMetafield(customCollectionID int,
metafieldID int) error`. -/
def CustomCollectionAPIOp.DeleteMetafield (mf : MetafieldAPI Metafield Options Err World)
    (customCollectionID : Int) (metafieldID : Int)
    (st : State Time Image Metafield Options World) :
    Option Err × State Time Image Metafield Options World :=
  let metafieldAPI : MetafieldAPIOp :=
    { client := st.self.client, resource := customCollectionsResourceName,
      resourceID := customCollectionID }
  callMetafieldDelete mf metafieldAPI metafieldID st

end Operations

/-! ## Client behaviours on failure, and sample collaborators -/

/-- A client that, whenever one of `Get`, `Post`, `Put` reports an error, has left the
response envelope as it was handed. -/
def Client.KeepsEnvelopeOnError {Time Image Metafield Options Err World : Type}
    (cl : Client Time Image Metafield Options Err World) : Prop :=
  (∀ c path k r o w, (cl.Get c path k r o w).1.2 ≠ none → (cl.Get c path k r o w).1.1 = r)
  ∧ (∀ c path d r w, (cl.Post c path d r w).1.2 ≠ none → (cl.Post c path d r w).1.1 = r)
  ∧ (∀ c path d r w, (cl.Put c path d r w).1.2 ≠ none → (cl.Put c path d r w).1.1 = r)

/-- A collection as a server may return it. -/
def sampleCollection : CustomCollection Unit Unit String :=
  { ID := 5, Handle := "sale", Title := "Sale", UpdatedAt := none, BodyHTML := "",
    SortOrder := "manual", TemplateSuffix := "", Image := (), Published := true,
    PublishedAt := none, PublishedScope := "web", Metafields := none }

/-- A collection not yet created: its identifier is unset. -/
def draftCollection : CustomCollection Unit Unit String :=
  { ID := 0, Handle := "", Title := "Spring", UpdatedAt := none, BodyHTML := "",
    SortOrder := "", TemplateSuffix := "", Image := (), Published := false,
    PublishedAt := none, PublishedScope := "", Metafields := none }

/-- A client whose JSON decoding fails after it has written into the response envelope: every
method reports a decode error, and the envelope it was handed holds what had been decoded
before the failure. The world counts the requests made. -/
def decodeFailureClient : Client Unit Unit String (Option String) String Nat where
  Get := fun _ _ k _ _ w =>
    match k with
    | ResKind.collection =>
      (({ Collection := some sampleCollection }, some "json: cannot unmarshal"), w + 1)
    | ResKind.collections =>
      (({ Collections := some [sampleCollection] }, some "json: cannot unmarshal"), w + 1)
  Count := fun _ _ _ w => ((0, some "json: cannot unmarshal"), w + 1)
  Post := fun _ _ _ _ w =>
    (({ Collection := some sampleCollection }, some "json: cannot unmarshal"), w + 1)
  Put := fun _ _ _ _ w =>
    (({ Collection := some sampleCollection }, some "json: cannot unmarshal"), w + 1)
  Delete := fun _ _ w => (some "json: cannot unmarshal", w + 1)

/-- A client whose every request fails before any response is read: the envelope is left as
handed. -/
def refusedClient : Client Unit Unit String (Option String) String Nat where
  Get := fun _ _ _ r _ w => ((r, some "connection refused"), w + 1)
  Count := fun _ _ _ w => ((0, some "connection refused"), w + 1)
  Post := fun _ _ _ r w => ((r, some "connection refused"), w + 1)
  Put := fun _ _ _ r w => ((r, some "connection refused"), w + 1)
  Delete := fun _ _ w => (some "connection refused", w + 1)

/-- A client in front of a server that stores what is posted and assigns the identifier
1001 to it. -/
def assigningClient : Client Unit Unit String (Option String) String Nat where
  Get := fun _ _ k _ _ w =>
    match k with
    | ResKind.collection => (({ Collection := some sampleCollection }, none), w + 1)
    | ResKind.collections => (({ Collections := some [sampleCollection] }, none), w + 1)
  Count := fun _ _ _ w => ((1, none), w + 1)
  Post := fun _ _ d _ w =>
    (({ Collection := d.Collection.map (fun c => { c with ID := 1001 }) }, none), w + 1)
  Put := fun _ _ d _ w => (({ Collection := d.Collection }, none), w + 1)
  Delete := fun _ _ w => (none, w + 1)

/-- A state before any call: the receiver holds client 1. -/
def initialState : State Unit Unit String (Option String) Nat :=
  { self := { client := 1 }, world := 0, trace := [] }

/-! ## `encoding/json` on `CustomCollection`, driven by the struct tags -/

/-- JSON values. A number is an integer literal: the struct has no floating-point field.
An object is the sequence of its members in textual order. -/
inductive JSON where
  | null
  | bool (b : Bool)
  | num (n : Int)
  | str (s : String)
  | arr (items : List JSON)
  | obj (members : List (String × JSON))

/-- Keys of an object in order; a value that is not an object has none. -/
def JSON.keys : JSON → List String
  | JSON.obj members => members.map Prod.fst
  | _ => []

/-- Marshalling of the three types declared outside the file: how a value is encoded, how a
JSON value is decoded into an existing value, and the zero value. -/
structure Codecs (Time Image Metafield : Type) where
  encTime : Time → JSON
  decTime : JSON → Time → Time
  zeroTime : Time
  encImage : Image → JSON
  decImage : JSON → Image → Image
  zeroImage : Image
  encMetafield : Metafield → JSON
  decMetafield : JSON → Metafield → Metafield
  zeroMetafield : Metafield

/-- The fields of `CustomCollection`. -/
inductive Field where
  | ID | Handle | Title | UpdatedAt | BodyHTML | SortOrder | TemplateSuffix | Image
  | Published | PublishedAt | PublishedScope | Metafields
deriving DecidableEq

/-- The fields in declaration order, the order in which they are encoded. -/
def Field.all : List Field :=
  [Field.ID, Field.Handle, Field.Title, Field.UpdatedAt, Field.BodyHTML, Field.SortOrder,
   Field.TemplateSuffix, Field.Image, Field.Published, Field.PublishedAt,
   Field.PublishedScope, Field.Metafields]

/-- A `json:"..."` struct tag: the key, and whether `omitempty` is set. -/
structure Tag where
  name : String
  omitempty : Bool

/-- The struct tags of `CustomCollection`, as written in the source. -/
def Field.tag : Field → Tag
  | Field.ID => ⟨"id", false⟩
  | Field.Handle => ⟨"handle", false⟩
  | Field.Title => ⟨"title", false⟩
  | Field.UpdatedAt => ⟨"updated_at", false⟩
  | Field.BodyHTML => ⟨"body_html", false⟩
  | Field.SortOrder => ⟨"sort_order", false⟩
  | Field.TemplateSuffix => ⟨"template_suffix", false⟩
  | Field.Image => ⟨"image", false⟩
  | Field.Published => ⟨"published", false⟩
  | Field.PublishedAt => ⟨"published_at", false⟩
  | Field.PublishedScope => ⟨"published_scope", false⟩
  | Field.Metafields => ⟨"metafields", true⟩

section Marshalling

variable {Time Image Metafield : Type}

/-- The zero value of `CustomCollection`. -/
def zeroCollection (cd : Codecs Time Image Metafield) : CustomCollection Time Image Metafield :=
  { ID := 0, Handle := "", Title := "", UpdatedAt := none, BodyHTML := "", SortOrder := "",
    TemplateSuffix := "", Image := cd.zeroImage, Published := false, PublishedAt := none,
    PublishedScope := "", Metafields := none }

/-- What `omitempty` tests: false, zero, the empty string, a nil pointer, a slice of length
zero; a struct value is never empty. -/
def isEmptyValue (c : CustomCollection Time Image Metafield) : Field → Bool
  | Field.ID => c.ID == 0
  | Field.Handle => c.Handle.length == 0
  | Field.Title => c.Title.length == 0
  | Field.UpdatedAt => c.UpdatedAt.isNone
  | Field.BodyHTML => c.BodyHTML.length == 0
  | Field.SortOrder => c.SortOrder.length == 0
  | Field.TemplateSuffix => c.TemplateSuffix.length == 0
  | Field.Image => false
  | Field.Published => !c.Published
  | Field.PublishedAt => c.PublishedAt.isNone
  | Field.PublishedScope => c.PublishedScope.length == 0
  | Field.Metafields => c.Metafields.len == 0

/-- Encoding of a pointer: `null` when nil. -/
def encodePtr {α : Type} (enc : α → JSON) : Option α → JSON
  | none => JSON.null
  | some a => enc a

/-- Encoding of a slice: `null` when nil, otherwise the array of its elements. -/
def encodeSlice {α : Type} (enc : α → JSON) : Slice α → JSON
  | none => JSON.null
  | some xs => JSON.arr (xs.map enc)

/-- The encoded value of a field. -/
def encodeField (cd : Codecs Time Image Metafield) (c : CustomCollection Time Image Metafield) :
    Field → JSON
  | Field.ID => JSON.num c.ID
  | Field.Handle => JSON.str c.Handle
  | Field.Title => JSON.str c.Title
  | Field.UpdatedAt => encodePtr cd.encTime c.UpdatedAt
  | Field.BodyHTML => JSON.str c.BodyHTML
  | Field.SortOrder => JSON.str c.SortOrder
  | Field.TemplateSuffix => JSON.str c.TemplateSuffix
  | Field.Image => cd.encImage c.Image
  | Field.Published => JSON.bool c.Published
  | Field.PublishedAt => encodePtr cd.encTime c.PublishedAt
  | Field.PublishedScope => JSON.str c.PublishedScope
  | Field.Metafields => encodeSlice cd.encMetafield c.Metafields

/-- Embedding of `json.Marshal` on a `CustomCollection`: one member per field, in declaration
order, under the key of its tag; a field tagged `omitempty` is left out when empty. -/
def Marshal (cd : Codecs Time Image Metafield) (c : CustomCollection Time Image Metafield) :
    JSON :=
  JSON.obj (Field.all.filterMap (fun f =>
    if f.tag.omitempty && isEmptyValue c f then none
    else some (f.tag.name, encodeField cd c f)))

/-- Case folding of one character, for comparison against ASCII text: an upper-case ASCII
letter folds to lower case; the long s (U+017F) and the Kelvin sign (U+212A), the only
characters outside ASCII that fold to an ASCII letter, fold to `s` and `k`. -/
def foldRune (c : Char) : Char :=
  if 65 ≤ c.toNat ∧ c.toNat ≤ 90 then Char.ofNat (c.toNat + 32)
  else if c.toNat = 0x17F then 's'
  else if c.toNat = 0x212A then 'k'
  else c

/-- Case-insensitive comparison of a tag name with an object key; it agrees with Go's
`strings.EqualFold` when the tag name is ASCII, as all twelve are. -/
def equalFold (name key : String) : Bool :=
  name.data.map foldRune == key.data.map foldRune

/-- The field an object key is decoded into: the field whose tag name is the key, else the
first field whose tag name equals the key case-insensitively, else none (the member is
skipped). -/
def findField (key : String) : Option Field :=
  match Field.all.find? (fun f => f.tag.name == key) with
  | some f => some f
  | none => Field.all.find? (fun f => equalFold f.tag.name key)

/-- Decoding of a JSON array into a slice: element `i` is decoded into element `i` of the
slice when it has one, into a zero value otherwise; the result is non-nil and as long as the
array. -/
def decodeSlice {α : Type} (dec : JSON → α → α) (zero : α) (items : List JSON) (old : Slice α) :
    List α :=
  items.enum.map (fun p => dec p.2 (((old.getD []).get? p.1).getD zero))

/-- Decoding of a JSON value into one field. `null` sets a pointer or slice to nil and leaves
every other field as is; a value of the wrong JSON type leaves the field as is; an integer
outside the range of a 64-bit `int` leaves the field as is. A non-null value for a nil
pointer field is decoded into a newly allocated zero value. -/
def decodeField (cd : Codecs Time Image Metafield) (f : Field) (v : JSON)
    (c : CustomCollection Time Image Metafield) : CustomCollection Time Image Metafield :=
  match f, v with
  | Field.ID, JSON.num n =>
    if -(2 : Int) ^ 63 ≤ n ∧ n < (2 : Int) ^ 63 then { c with ID := n } else c
  | Field.ID, _ => c
  | Field.Handle, JSON.str s => { c with Handle := s }
  | Field.Handle, _ => c
  | Field.Title, JSON.str s => { c with Title := s }
  | Field.Title, _ => c
  | Field.UpdatedAt, JSON.null => { c with UpdatedAt := none }
  | Field.UpdatedAt, v => { c with UpdatedAt := some (cd.decTime v (c.UpdatedAt.getD cd.zeroTime)) }
  | Field.BodyHTML, JSON.str s => { c with BodyHTML := s }
  | Field.BodyHTML, _ => c
  | Field.SortOrder, JSON.str s => { c with SortOrder := s }
  | Field.SortOrder, _ => c
  | Field.TemplateSuffix, JSON.str s => { c with TemplateSuffix := s }
  | Field.TemplateSuffix, _ => c
  | Field.Image, v => { c with Image := cd.decImage v c.Image }
  | Field.Published, JSON.bool b => { c with Published := b }
  | Field.Published, _ => c
  | Field.PublishedAt, JSON.null => { c with PublishedAt := none }
  | Field.PublishedAt, v =>
    { c with PublishedAt := some (cd.decTime v (c.PublishedAt.getD cd.zeroTime)) }
  | Field.PublishedScope, JSON.str s => { c with PublishedScope := s }
  | Field.PublishedScope, _ => c
  | Field.Metafields, JSON.null => { c with Metafields := none }
  | Field.Metafields, JSON.arr items =>
    { c with Metafields := some (decodeSlice cd.decMetafield cd.zeroMetafield items c.Metafields) }
  | Field.Metafields, _ => c

/-- Decoding of one object member into the collection. -/
def decodeMember (cd : Codecs Time Image Metafield) (c : CustomCollection Time Image Metafield)
    (m : String × JSON) : CustomCollection Time Image Metafield :=
  match findField m.1 with
  | some f => decodeField cd f m.2 c
  | none => c

/-- Embedding of `json.Unmarshal` into a `*CustomCollection` holding `c`: the members of an
object are decoded in order; `null` and values that are not objects leave `c` as is. The
value left in the target is modelled, the error returned is not. -/
def Unmarshal (cd : Codecs Time Image Metafield) (v : JSON)
    (c : CustomCollection Time Image Metafield) : CustomCollection Time Image Metafield :=
  match v with
  | JSON.obj members => members.foldl (decodeMember cd) c
  | _ => c

end Marshalling

/-- Codecs for the sample types: a time has one value, an image has one value, a metafield
is its key, encoded as an object with the member `key`. -/
def sampleCodecs : Codecs Unit Unit String where
  encTime := fun _ => JSON.str "2017-01-01T00:00:00Z"
  decTime := fun _ t => t
  zeroTime := ()
  encImage := fun _ => JSON.obj []
  decImage := fun _ i => i
  zeroImage := ()
  encMetafield := fun m => JSON.obj [("key", JSON.str m)]
  decMetafield := fun v m => match v with
    | JSON.obj [("key", JSON.str s)] => s
    | _ => m
  zeroMetafield := ""

/-- The keys every encoded collection has, in order. -/
def alwaysKeys : List String :=
  ["id", "handle", "title", "updated_at", "body_html", "sort_order", "template_suffix",
   "image", "published", "published_at", "published_scope"]

/-! ## Paths -/

theorem digitChar_of_lt_ten (d : Nat) (h : d < 10) : Nat.digitChar d = Char.ofNat (48 + d) := by
  interval_cases d <;> rfl

theorem toDigitsCore_eq_fmtUnsigned (fuel n : Nat) (ds : List Char) (h : n < fuel) :
    Nat.toDigitsCore 10 fuel n ds = fmtUnsigned n ++ ds := by
  induction fuel generalizing n ds with
  | zero => omega
  | succ f ih =>
    rw [Nat.toDigitsCore, fmtUnsigned]
    by_cases h10 : n < 10
    · have hz : n / 10 = 0 := by omega
      simp [hz, h10, Nat.mod_eq_of_lt h10, digitChar_of_lt_ten]
    · have hne : n / 10 ≠ 0 := by omega
      have hm : n % 10 < 10 := Nat.mod_lt _ (by decide)
      simp only [hne, h10, if_false, dite_false]
      rw [ih _ _ (by omega), digitChar_of_lt_ten _ hm]
      simp

theorem fmtUnsigned_eq_repr (n : Nat) : fmtUnsigned n = (Nat.repr n).data := by
  simp [Nat.repr, Nat.toDigits, toDigitsCore_eq_fmtUnsigned, List.asString]

/-- The verb `%d` renders an int as its decimal numeral. -/
theorem fmtInteger_eq_decimal (n : Int) : String.mk (fmtInteger n) = decimal n := by
  cases n with
  | ofNat m =>
    have h : ¬ (Int.ofNat m < 0) := by simp
    simp [fmtInteger, decimal, h, fmtUnsigned_eq_repr]
    rfl
  | negSucc m =>
    have h : Int.negSucc m < 0 := Int.negSucc_lt_zero m
    simp [fmtInteger, decimal, h, fmtUnsigned_eq_repr]
    rfl

theorem sprintf_list_path :
    Sprintf "%s.json" [Arg.str customCollectionsBasePath] = "admin/custom_collections.json" := by
  decide

theorem sprintf_count_path :
    Sprintf "%s/count.json" [Arg.str customCollectionsBasePath]
      = "admin/custom_collections/count.json" := by
  decide

theorem sprintf_id_path (n : Int) :
    Sprintf "%s/%d.json" [Arg.str customCollectionsBasePath, Arg.int n]
      = "admin/custom_collections/" ++ decimal n ++ ".json" := by
  rw [← fmtInteger_eq_decimal]
  apply String.ext
  simp [Sprintf, sprintfAux, customCollectionsBasePath]

section Contracts

variable {Time Image Metafield Options Err World : Type}

/-- C1. For every id (zero and negative included) and every options value, `Get` makes exactly
one call on a collaborator, the client's `Get` on the receiver's client, with the path
`admin/custom_collections/{decimal id}.json`, a fresh single-collection envelope and the
options as given; its result is the `Collection` field the client left in that envelope and
its error is the client's. For the ids 0 and -3 the
numeral in the path is `0` and `-3`. -/
theorem Get_contract (cl : Client Time Image Metafield Options Err World) (collectionID : Int)
    (options : Options) (st : State Time Image Metafield Options World) :
    (CustomCollectionAPIOp.Get cl collectionID options st).2.trace
        = st.trace ++ [Call.clientGet st.self.client
            ("admin/custom_collections/" ++ decimal collectionID ++ ".json")
            ResKind.collection options]
    ∧ (CustomCollectionAPIOp.Get cl collectionID options st).1.1
        = CustomCollectionResource.Collection
            (cl.Get st.self.client
              ("admin/custom_collections/" ++ decimal collectionID ++ ".json")
              ResKind.collection ({} : CustomCollectionResource Time Image Metafield)
              options st.world).1.1
    ∧ (CustomCollectionAPIOp.Get cl collectionID options st).1.2
        = (cl.Get st.self.client
              ("admin/custom_collections/" ++ decimal collectionID ++ ".json")
              ResKind.collection ({} : CustomCollectionResource Time Image Metafield)
              options st.world).1.2
    ∧ (CustomCollectionAPIOp.Get cl collectionID options st).2.world
        = (cl.Get st.self.client
              ("admin/custom_collections/" ++ decimal collectionID ++ ".json")
              ResKind.collection ({} : CustomCollectionResource Time Image Metafield)
              options st.world).2
    ∧ (CustomCollectionAPIOp.Get cl 0 options st).2.trace
        = st.trace ++ [Call.clientGet st.self.client "admin/custom_collections/0.json"
            ResKind.collection options]
    ∧ (CustomCollectionAPIOp.Get cl (-3) options st).2.trace
        = st.trace ++ [Call.clientGet st.self.client "admin/custom_collections/-3.json"
            ResKind.collection options] := by
  simp [CustomCollectionAPIOp.Get, callGet, sprintf_id_path]
  decide

/-- C2. For every options value, `List` makes exactly one call on a collaborator, the
client's `Get` on the receiver's client, with the path `admin/custom_collections.json`, a
fresh sequence envelope and the options as given; its result is the `Collections` slice the
client left in that envelope, the same slice value (nil or not, same elements, same order),
hence of the same length. -/
theorem List_contract (cl : Client Time Image Metafield Options Err World)
    (options : Options) (st : State Time Image Metafield Options World) :
    (CustomCollectionAPIOp.List cl options st).2.trace
        = st.trace ++ [Call.clientGet st.self.client "admin/custom_collections.json"
            ResKind.collections options]
    ∧ (CustomCollectionAPIOp.List cl options st).1.1
        = CustomCollectionsResource.Collections
            (cl.Get st.self.client "admin/custom_collections.json" ResKind.collections
              ({} : CustomCollectionsResource Time Image Metafield) options st.world).1.1
    ∧ Slice.len (CustomCollectionAPIOp.List cl options st).1.1
        = Slice.len (CustomCollectionsResource.Collections
            (cl.Get st.self.client "admin/custom_collections.json" ResKind.collections
              ({} : CustomCollectionsResource Time Image Metafield) options st.world).1.1)
    ∧ (CustomCollectionAPIOp.List cl options st).1.2
        = (cl.Get st.self.client "admin/custom_collections.json" ResKind.collections
              ({} : CustomCollectionsResource Time Image Metafield) options st.world).1.2 := by
  simp [CustomCollectionAPIOp.List, callGet, sprintf_list_path]

/-- C3. For every collection `c` (one with `c.ID = 0` included), `Create` makes exactly one
call on a collaborator, the client's `Post` on the receiver's client, with the path
`admin/custom_collections.json` and as body the envelope whose `Collection` is `c`; its
result is the `Collection` the client left in the response envelope, so a response
collection with a non-zero identifier is returned with that identifier. -/
theorem Create_contract (cl : Client Time Image Metafield Options Err World)
    (c : CustomCollection Time Image Metafield)
    (st : State Time Image Metafield Options World) :
    (CustomCollectionAPIOp.Create cl c st).2.trace
        = st.trace ++ [Call.clientPost st.self.client "admin/custom_collections.json"
            { Collection := some c }]
    ∧ (CustomCollectionAPIOp.Create cl c st).1.1
        = (cl.Post st.self.client "admin/custom_collections.json" { Collection := some c } {}
            st.world).1.1.Collection
    ∧ (∀ r : CustomCollection Time Image Metafield,
        (cl.Post st.self.client "admin/custom_collections.json" { Collection := some c } {}
            st.world).1.1.Collection = some r → r.ID ≠ 0 →
        ∃ r' : CustomCollection Time Image Metafield,
          (CustomCollectionAPIOp.Create cl c st).1.1 = some r' ∧ r'.ID = r.ID ∧ r'.ID ≠ 0) := by
  refine ⟨?_, ?_, ?_⟩
  · simp [CustomCollectionAPIOp.Create, callPost, sprintf_list_path]
  · simp [CustomCollectionAPIOp.Create, callPost, sprintf_list_path]
  · intro r hr hid
    refine ⟨r, ?_, rfl, hid⟩
    rw [← hr]
    simp [CustomCollectionAPIOp.Create, callPost, sprintf_list_path]

/-- C4. For every collection `c`, `Update` makes exactly one call on a collaborator, the
client's `Put` on the receiver's client, with the path
`admin/custom_collections/{decimal c.ID}.json`, as body the envelope whose `Collection` is
`c`, and a fresh response envelope; its result, its error and the world afterwards are those
of that call. Two collections with the same `ID` are sent to the same path; `ID = 42` gives
`admin/custom_collections/42.json`; `ID = 0` is not rejected: the call is made with the path
`admin/custom_collections/0.json`. -/
theorem Update_contract (cl : Client Time Image Metafield Options Err World)
    (c : CustomCollection Time Image Metafield)
    (st : State Time Image Metafield Options World) :
    ((CustomCollectionAPIOp.Update cl c st).2.trace
        = st.trace ++ [Call.clientPut st.self.client
            ("admin/custom_collections/" ++ decimal c.ID ++ ".json") { Collection := some c }]
      ∧ (CustomCollectionAPIOp.Update cl c st).1.1
        = (cl.Put st.self.client ("admin/custom_collections/" ++ decimal c.ID ++ ".json")
            { Collection := some c } {} st.world).1.1.Collection
      ∧ (CustomCollectionAPIOp.Update cl c st).1.2
        = (cl.Put st.self.client ("admin/custom_collections/" ++ decimal c.ID ++ ".json")
            { Collection := some c } {} st.world).1.2
      ∧ (CustomCollectionAPIOp.Update cl c st).2.world
        = (cl.Put st.self.client ("admin/custom_collections/" ++ decimal c.ID ++ ".json")
            { Collection := some c } {} st.world).2)
    ∧ (∀ c' : CustomCollection Time Image Metafield, c'.ID = c.ID →
        (CustomCollectionAPIOp.Update cl c' st).2.trace
          = st.trace ++ [Call.clientPut st.self.client
              ("admin/custom_collections/" ++ decimal c.ID ++ ".json")
              { Collection := some c' }]
        ∧ (CustomCollectionAPIOp.Update cl c' st).1
          = ((cl.Put st.self.client ("admin/custom_collections/" ++ decimal c.ID ++ ".json")
              { Collection := some c' } {} st.world).1.1.Collection,
            (cl.Put st.self.client ("admin/custom_collections/" ++ decimal c.ID ++ ".json")
              { Collection := some c' } {} st.world).1.2)
        ∧ (CustomCollectionAPIOp.Update cl c' st).2.world
          = (cl.Put st.self.client ("admin/custom_collections/" ++ decimal c.ID ++ ".json")
              { Collection := some c' } {} st.world).2)
    ∧ (c.ID = 42 →
        (CustomCollectionAPIOp.Update cl c st).2.trace
          = st.trace ++ [Call.clientPut st.self.client "admin/custom_collections/42.json"
              { Collection := some c }]
        ∧ (CustomCollectionAPIOp.Update cl c st).1
          = ((cl.Put st.self.client "admin/custom_collections/42.json"
              { Collection := some c } {} st.world).1.1.Collection,
            (cl.Put st.self.client "admin/custom_collections/42.json"
              { Collection := some c } {} st.world).1.2)
        ∧ (CustomCollectionAPIOp.Update cl c st).2.world
          = (cl.Put st.self.client "admin/custom_collections/42.json"
              { Collection := some c } {} st.world).2)
    ∧ (c.ID = 0 →
        (CustomCollectionAPIOp.Update cl c st).2.trace
          = st.trace ++ [Call.clientPut st.self.client "admin/custom_collections/0.json"
              { Collection := some c }]
        ∧ (CustomCollectionAPIOp.Update cl c st).1
          = ((cl.Put st.self.client "admin/custom_collections/0.json"
              { Collection := some c } {} st.world).1.1.Collection,
            (cl.Put st.self.client "admin/custom_collections/0.json"
              { Collection := some c } {} st.world).1.2)
        ∧ (CustomCollectionAPIOp.Update cl c st).2.world
          = (cl.Put st.self.client "admin/custom_collections/0.json"
              { Collection := some c } {} st.world).2) := by
  have h42 : "admin/custom_collections/" ++ decimal 42 ++ ".json"
      = "admin/custom_collections/42.json" := by decide
  have h0 : "admin/custom_collections/" ++ decimal 0 ++ ".json"
      = "admin/custom_collections/0.json" := by decide
  refine ⟨?_, ?_, ?_, ?_⟩
  · simp [CustomCollectionAPIOp.Update, callPut, sprintf_id_path]
  · intro c' h
    simp [CustomCollectionAPIOp.Update, callPut, sprintf_id_path, h]
  · intro h
    simp [CustomCollectionAPIOp.Update, callPut, sprintf_id_path, h, h42]
  · intro h
    simp [CustomCollectionAPIOp.Update, callPut, sprintf_id_path, h, h0]

/-- C5. For every id, `Delete` makes exactly one call on a collaborator, the client's
`Delete` on the receiver's client, with the path `admin/custom_collections/{decimal id}.json`;
what it returns is the error value of that call and nothing else. -/
theorem Delete_contract (cl : Client Time Image Metafield Options Err World)
    (collectionID : Int) (st : State Time Image Metafield Options World) :
    (CustomCollectionAPIOp.Delete cl collectionID st).2.trace
        = st.trace ++ [Call.clientDelete st.self.client
            ("admin/custom_collections/" ++ decimal collectionID ++ ".json")]
    ∧ (CustomCollectionAPIOp.Delete cl collectionID st).1
        = (cl.Delete st.self.client
            ("admin/custom_collections/" ++ decimal collectionID ++ ".json") st.world).1
    ∧ (CustomCollectionAPIOp.Delete cl 7 st).2.trace
        = st.trace ++ [Call.clientDelete st.self.client "admin/custom_collections/7.json"] := by
  simp [CustomCollectionAPIOp.Delete, callDelete, sprintf_id_path]
  decide

/-- C6. For every options value, `Count` makes exactly one call on a collaborator, the
client's `Count` on the receiver's client, with the path
`admin/custom_collections/count.json` and the options as given, and returns the pair of
integer and error of that call unchanged. -/
theorem Count_contract (cl : Client Time Image Metafield Options Err World)
    (options : Options) (st : State Time Image Metafield Options World) :
    (CustomCollectionAPIOp.Count cl options st).2.trace
        = st.trace ++ [Call.clientCount st.self.client "admin/custom_collections/count.json"
            options]
    ∧ (CustomCollectionAPIOp.Count cl options st).1
        = (cl.Count st.self.client "admin/custom_collections/count.json" options
            st.world).1 := by
  simp [CustomCollectionAPIOp.Count, callCount, sprintf_count_path]

/-- Witness of `Create_contract`: a draft with unset identifier is posted and comes back
with the identifier the server assigned. -/
theorem Create_contract_witness :
    draftCollection.ID = 0
    ∧ (assigningClient.Post initialState.self.client "admin/custom_collections.json"
        { Collection := some draftCollection } {} initialState.world).1.1.Collection
        = some { draftCollection with ID := 1001 }
    ∧ ∃ r' : CustomCollection Unit Unit String,
        (CustomCollectionAPIOp.Create assigningClient draftCollection initialState).1.1 = some r'
        ∧ r'.ID = 1001 ∧ r'.ID ≠ 0 :=
  ⟨rfl, rfl,
    (Create_contract assigningClient draftCollection initialState).2.2
      { draftCollection with ID := 1001 } rfl (by decide)⟩

/-- Witness of `Update_contract`: the sample collection with identifier 42 and the draft
with identifier 0, sent through the client that answers with what it was sent. -/
theorem Update_contract_witness :
    ((CustomCollectionAPIOp.Update assigningClient { sampleCollection with ID := 42 }
        initialState).2.trace
      = [Call.clientPut 1 "admin/custom_collections/42.json"
          { Collection := some { sampleCollection with ID := 42 } }]
      ∧ (CustomCollectionAPIOp.Update assigningClient { sampleCollection with ID := 42 }
          initialState).1 = (some { sampleCollection with ID := 42 }, none)
      ∧ (CustomCollectionAPIOp.Update assigningClient { sampleCollection with ID := 42 }
          initialState).2.world = 1)
    ∧ ((CustomCollectionAPIOp.Update assigningClient draftCollection initialState).2.trace
      = [Call.clientPut 1 "admin/custom_collections/0.json"
          { Collection := some draftCollection }]
      ∧ (CustomCollectionAPIOp.Update assigningClient draftCollection initialState).1
          = (some draftCollection, none)
      ∧ (CustomCollectionAPIOp.Update assigningClient draftCollection initialState).2.world
          = 1)
    ∧ (CustomCollectionAPIOp.Update assigningClient { draftCollection with ID := 42 }
        initialState).2.trace
      = [Call.clientPut 1 ("admin/custom_collections/" ++ decimal 42 ++ ".json")
          { Collection := some { draftCollection with ID := 42 } }] :=
  ⟨(Update_contract assigningClient { sampleCollection with ID := 42 } initialState).2.2.1 rfl,
   (Update_contract assigningClient draftCollection initialState).2.2.2 rfl,
   ((Update_contract assigningClient { sampleCollection with ID := 42 } initialState).2.1
     { draftCollection with ID := 42 } rfl).1⟩

/-- C7 as stated fails: with a client whose decoding fails after it has written into the
envelope, each of `List`, `Get`, `Create` and `Update` returns a non-nil error together with
a non-nil result. -/
theorem result_with_error_counterexample :
    ((CustomCollectionAPIOp.List decodeFailureClient none initialState).1.2
        = some "json: cannot unmarshal"
      ∧ (CustomCollectionAPIOp.List decodeFailureClient none initialState).1.1
        = some [sampleCollection])
    ∧ ((CustomCollectionAPIOp.Get decodeFailureClient 5 none initialState).1.2
        = some "json: cannot unmarshal"
      ∧ (CustomCollectionAPIOp.Get decodeFailureClient 5 none initialState).1.1
        = some sampleCollection)
    ∧ ((CustomCollectionAPIOp.Create decodeFailureClient draftCollection initialState).1.2
        = some "json: cannot unmarshal"
      ∧ (CustomCollectionAPIOp.Create decodeFailureClient draftCollection initialState).1.1
        = some sampleCollection)
    ∧ ((CustomCollectionAPIOp.Update decodeFailureClient sampleCollection initialState).1.2
        = some "json: cannot unmarshal"
      ∧ (CustomCollectionAPIOp.Update decodeFailureClient sampleCollection initialState).1.1
        = some sampleCollection) :=
  ⟨⟨rfl, rfl⟩, ⟨rfl, rfl⟩, ⟨rfl, rfl⟩, ⟨rfl, rfl⟩⟩

/-- C7, amended. For every client, the result that `List`, `Get`, `Create` and `Update`
return is the value the client left in the `Collections` or `Collection` field of the
response envelope, whether or not the client reported an error: no operation inspects the
error or resets its result. Hence, for a client that leaves the response envelope as handed
whenever it reports an error, each of the four operations that returns a non-nil error
returns a nil result with it: a nil slice for `List`, a nil collection for the other
three. -/
theorem nil_result_on_error (cl : Client Time Image Metafield Options Err World)
    (st : State Time Image Metafield Options World) :
    (∀ options : Options,
        (CustomCollectionAPIOp.List cl options st).1.1
          = CustomCollectionsResource.Collections
              (cl.Get st.self.client "admin/custom_collections.json" ResKind.collections
                ({} : CustomCollectionsResource Time Image Metafield) options st.world).1.1)
    ∧ (∀ (collectionID : Int) (options : Options),
        (CustomCollectionAPIOp.Get cl collectionID options st).1.1
          = CustomCollectionResource.Collection
              (cl.Get st.self.client
                ("admin/custom_collections/" ++ decimal collectionID ++ ".json")
                ResKind.collection ({} : CustomCollectionResource Time Image Metafield)
                options st.world).1.1)
    ∧ (∀ c : CustomCollection Time Image Metafield,
        (CustomCollectionAPIOp.Create cl c st).1.1
          = (cl.Post st.self.client "admin/custom_collections.json"
              { Collection := some c } {} st.world).1.1.Collection)
    ∧ (∀ c : CustomCollection Time Image Metafield,
        (CustomCollectionAPIOp.Update cl c st).1.1
          = (cl.Put st.self.client ("admin/custom_collections/" ++ decimal c.ID ++ ".json")
              { Collection := some c } {} st.world).1.1.Collection)
    ∧ (cl.KeepsEnvelopeOnError →
        (∀ options, (CustomCollectionAPIOp.List cl options st).1.2 ≠ none →
            (CustomCollectionAPIOp.List cl options st).1.1 = none)
        ∧ (∀ collectionID options,
            (CustomCollectionAPIOp.Get cl collectionID options st).1.2 ≠ none →
            (CustomCollectionAPIOp.Get cl collectionID options st).1.1 = none)
        ∧ (∀ c, (CustomCollectionAPIOp.Create cl c st).1.2 ≠ none →
            (CustomCollectionAPIOp.Create cl c st).1.1 = none)
        ∧ (∀ c, (CustomCollectionAPIOp.Update cl c st).1.2 ≠ none →
            (CustomCollectionAPIOp.Update cl c st).1.1 = none)) := by
  have hl : ∀ options : Options,
      (CustomCollectionAPIOp.List cl options st).1.1
        = CustomCollectionsResource.Collections
            (cl.Get st.self.client "admin/custom_collections.json" ResKind.collections
              ({} : CustomCollectionsResource Time Image Metafield) options st.world).1.1 := by
    intro options
    simp [CustomCollectionAPIOp.List, callGet, sprintf_list_path]
  have hg : ∀ (collectionID : Int) (options : Options),
      (CustomCollectionAPIOp.Get cl collectionID options st).1.1
        = CustomCollectionResource.Collection
            (cl.Get st.self.client
              ("admin/custom_collections/" ++ decimal collectionID ++ ".json")
              ResKind.collection ({} : CustomCollectionResource Time Image Metafield)
              options st.world).1.1 := by
    intro collectionID options
    simp [CustomCollectionAPIOp.Get, callGet, sprintf_id_path]
  have hc : ∀ c : CustomCollection Time Image Metafield,
      (CustomCollectionAPIOp.Create cl c st).1.1
        = (cl.Post st.self.client "admin/custom_collections.json"
            { Collection := some c } {} st.world).1.1.Collection := by
    intro c
    simp [CustomCollectionAPIOp.Create, callPost, sprintf_list_path]
  have hu : ∀ c : CustomCollection Time Image Metafield,
      (CustomCollectionAPIOp.Update cl c st).1.1
        = (cl.Put st.self.client ("admin/custom_collections/" ++ decimal c.ID ++ ".json")
            { Collection := some c } {} st.world).1.1.Collection := by
    intro c
    simp [CustomCollectionAPIOp.Update, callPut, sprintf_id_path]
  refine ⟨hl, hg, hc, hu, ?_⟩
  intro hcl
  obtain ⟨hget, hpost, hput⟩ := hcl
  refine ⟨?_, ?_, ?_, ?_⟩
  · intro options herr
    have herr' : (cl.Get st.self.client "admin/custom_collections.json" ResKind.collections
        ({} : CustomCollectionsResource Time Image Metafield) options st.world).1.2 ≠ none := by
      simpa [CustomCollectionAPIOp.List, callGet, sprintf_list_path] using herr
    rw [hl, hget _ _ _ _ _ _ herr']
  · intro collectionID options herr
    have herr' : (cl.Get st.self.client
        ("admin/custom_collections/" ++ decimal collectionID ++ ".json") ResKind.collection
        ({} : CustomCollectionResource Time Image Metafield) options st.world).1.2 ≠ none := by
      simpa [CustomCollectionAPIOp.Get, callGet, sprintf_id_path] using herr
    rw [hg, hget _ _ _ _ _ _ herr']
  · intro c herr
    have herr' : (cl.Post st.self.client "admin/custom_collections.json"
        { Collection := some c } {} st.world).1.2 ≠ none := by
      simpa [CustomCollectionAPIOp.Create, callPost, sprintf_list_path] using herr
    rw [hc, hpost _ _ _ _ _ herr']
  · intro c herr
    have herr' : (cl.Put st.self.client
        ("admin/custom_collections/" ++ decimal c.ID ++ ".json")
        { Collection := some c } {} st.world).1.2 ≠ none := by
      simpa [CustomCollectionAPIOp.Update, callPut, sprintf_id_path] using herr
    rw [hu, hput _ _ _ _ _ herr']

/-- Witness of `nil_result_on_error`: the client whose connection is refused keeps the
envelope, returns an error from all four operations, and their results are nil; the client
whose decoding fails midway makes `Update` return what it had decoded. -/
theorem nil_result_on_error_witness :
    refusedClient.KeepsEnvelopeOnError
    ∧ (CustomCollectionAPIOp.List refusedClient none initialState).1.2 ≠ none
    ∧ (CustomCollectionAPIOp.List refusedClient none initialState).1.1 = none
    ∧ (CustomCollectionAPIOp.Get refusedClient 5 none initialState).1.1 = none
    ∧ (CustomCollectionAPIOp.Create refusedClient draftCollection initialState).1.1 = none
    ∧ (CustomCollectionAPIOp.Update refusedClient sampleCollection initialState).1.1 = none
    ∧ (CustomCollectionAPIOp.Update decodeFailureClient draftCollection initialState).1.1
        = (decodeFailureClient.Put 1 "admin/custom_collections/0.json"
            { Collection := some draftCollection } {} 0).1.1.Collection :=
  have hk : refusedClient.KeepsEnvelopeOnError :=
    ⟨fun _ _ _ _ _ _ _ => rfl, fun _ _ _ _ _ _ => rfl, fun _ _ _ _ _ _ => rfl⟩
  ⟨hk, by simp [CustomCollectionAPIOp.List, callGet, refusedClient],
    ((nil_result_on_error refusedClient initialState).2.2.2.2 hk).1 none
      (by simp [CustomCollectionAPIOp.List, callGet, refusedClient]),
    ((nil_result_on_error refusedClient initialState).2.2.2.2 hk).2.1 5 none
      (by simp [CustomCollectionAPIOp.Get, callGet, refusedClient]),
    ((nil_result_on_error refusedClient initialState).2.2.2.2 hk).2.2.1 draftCollection
      (by simp [CustomCollectionAPIOp.Create, callPost, refusedClient]),
    ((nil_result_on_error refusedClient initialState).2.2.2.2 hk).2.2.2 sampleCollection
      (by simp [CustomCollectionAPIOp.Update, callPut, refusedClient]),
    (nil_result_on_error decodeFailureClient initialState).2.2.2.1 draftCollection⟩

/-- C8. Each of `List`, `Count`, `Get`, `Create`, `Update` and `Delete` makes exactly one call
on a collaborator, for every input and every client, and the error it returns is the error
value of that call: it is nil exactly when the client's is, and it is the same value
otherwise. -/
theorem errors_pass_through (cl : Client Time Image Metafield Options Err World)
    (st : State Time Image Metafield Options World) (options : Options) (collectionID : Int)
    (c : CustomCollection Time Image Metafield) :
    ((CustomCollectionAPIOp.List cl options st).1.2
        = (cl.Get st.self.client "admin/custom_collections.json" ResKind.collections
            ({} : CustomCollectionsResource Time Image Metafield) options st.world).1.2
      ∧ (CustomCollectionAPIOp.List cl options st).2.trace.length = st.trace.length + 1)
    ∧ ((CustomCollectionAPIOp.Count cl options st).1.2
        = (cl.Count st.self.client "admin/custom_collections/count.json" options
            st.world).1.2
      ∧ (CustomCollectionAPIOp.Count cl options st).2.trace.length = st.trace.length + 1)
    ∧ ((CustomCollectionAPIOp.Get cl collectionID options st).1.2
        = (cl.Get st.self.client
            ("admin/custom_collections/" ++ decimal collectionID ++ ".json")
            ResKind.collection ({} : CustomCollectionResource Time Image Metafield)
            options st.world).1.2
      ∧ (CustomCollectionAPIOp.Get cl collectionID options st).2.trace.length
        = st.trace.length + 1)
    ∧ ((CustomCollectionAPIOp.Create cl c st).1.2
        = (cl.Post st.self.client "admin/custom_collections.json" { Collection := some c } {}
            st.world).1.2
      ∧ (CustomCollectionAPIOp.Create cl c st).2.trace.length = st.trace.length + 1)
    ∧ ((CustomCollectionAPIOp.Update cl c st).1.2
        = (cl.Put st.self.client ("admin/custom_collections/" ++ decimal c.ID ++ ".json")
            { Collection := some c } {} st.world).1.2
      ∧ (CustomCollectionAPIOp.Update cl c st).2.trace.length = st.trace.length + 1)
    ∧ ((CustomCollectionAPIOp.Delete cl collectionID st).1
        = (cl.Delete st.self.client
            ("admin/custom_collections/" ++ decimal collectionID ++ ".json") st.world).1
      ∧ (CustomCollectionAPIOp.Delete cl collectionID st).2.trace.length
        = st.trace.length + 1) := by
  refine ⟨?_, ?_, ?_, ?_, ?_, ?_⟩
  · simp [CustomCollectionAPIOp.List, callGet, sprintf_list_path]
  · simp [CustomCollectionAPIOp.Count, callCount, sprintf_count_path]
  · simp [CustomCollectionAPIOp.Get, callGet, sprintf_id_path]
  · simp [CustomCollectionAPIOp.Create, callPost, sprintf_list_path]
  · simp [CustomCollectionAPIOp.Update, callPut, sprintf_id_path]
  · simp [CustomCollectionAPIOp.Delete, callDelete, sprintf_id_path]

/-- C10. For every collection id and every argument, each of `ListMetafields`,
`CountMetafields`, `GetMetafield`, `CreateMetafield`, `UpdateMetafield` and `DeleteMetafield`
makes exactly one call on a collaborator: the corresponding method (`List`, `Count`, `Get`,
`Create`, `Update`, `Delete`) of the binding whose client is the receiver's client, whose
resource is `"collections"` and whose resourceID is the given id, with the remaining
arguments as given. It returns the result and error of that call unchanged, and the receiver
is the same afterwards. -/
theorem metafield_delegation (mf : MetafieldAPI Metafield Options Err World)
    (st : State Time Image Metafield Options World) (customCollectionID metafieldID : Int)
    (options : Options) (metafield : Metafield) :
    ((CustomCollectionAPIOp.ListMetafields mf customCollectionID options st).1
        = (mf.List ⟨st.self.client, "collections", customCollectionID⟩ options st.world).1
      ∧ (CustomCollectionAPIOp.ListMetafields mf customCollectionID options st).2.trace
        = st.trace ++ [Call.metafieldList
            ⟨st.self.client, "collections", customCollectionID⟩ options]
      ∧ (CustomCollectionAPIOp.ListMetafields mf customCollectionID options st).2.self
        = st.self)
    ∧ ((CustomCollectionAPIOp.CountMetafields mf customCollectionID options st).1
        = (mf.Count ⟨st.self.client, "collections", customCollectionID⟩ options st.world).1
      ∧ (CustomCollectionAPIOp.CountMetafields mf customCollectionID options st).2.trace
        = st.trace ++ [Call.metafieldCount
            ⟨st.self.client, "collections", customCollectionID⟩ options]
      ∧ (CustomCollectionAPIOp.CountMetafields mf customCollectionID options st).2.self
        = st.self)
    ∧ ((CustomCollectionAPIOp.GetMetafield mf customCollectionID metafieldID options st).1
        = (mf.Get ⟨st.self.client, "collections", customCollectionID⟩ metafieldID options
            st.world).1
      ∧ (CustomCollectionAPIOp.GetMetafield mf customCollectionID metafieldID options
          st).2.trace
        = st.trace ++ [Call.metafieldGet
            ⟨st.self.client, "collections", customCollectionID⟩ metafieldID options]
      ∧ (CustomCollectionAPIOp.GetMetafield mf customCollectionID metafieldID options
          st).2.self = st.self)
    ∧ ((CustomCollectionAPIOp.CreateMetafield mf customCollectionID metafield st).1
        = (mf.Create ⟨st.self.client, "collections", customCollectionID⟩ metafield
            st.world).1
      ∧ (CustomCollectionAPIOp.CreateMetafield mf customCollectionID metafield st).2.trace
        = st.trace ++ [Call.metafieldCreate
            ⟨st.self.client, "collections", customCollectionID⟩ metafield]
      ∧ (CustomCollectionAPIOp.CreateMetafield mf customCollectionID metafield st).2.self
        = st.self)
    ∧ ((CustomCollectionAPIOp.UpdateMetafield mf customCollectionID metafield st).1
        = (mf.Update ⟨st.self.client, "collections", customCollectionID⟩ metafield
            st.world).1
      ∧ (CustomCollectionAPIOp.UpdateMetafield mf customCollectionID metafield st).2.trace
        = st.trace ++ [Call.metafieldUpdate
            ⟨st.self.client, "collections", customCollectionID⟩ metafield]
      ∧ (CustomCollectionAPIOp.UpdateMetafield mf customCollectionID metafield st).2.self
        = st.self)
    ∧ ((CustomCollectionAPIOp.DeleteMetafield mf customCollectionID metafieldID st).1
        = (mf.Delete ⟨st.self.client, "collections", customCollectionID⟩ metafieldID
            st.world).1
      ∧ (CustomCollectionAPIOp.DeleteMetafield mf customCollectionID metafieldID st).2.trace
        = st.trace ++ [Call.metafieldDelete
            ⟨st.self.client, "collections", customCollectionID⟩ metafieldID]
      ∧ (CustomCollectionAPIOp.DeleteMetafield mf customCollectionID metafieldID st).2.self
        = st.self) :=
  ⟨⟨rfl, rfl, rfl⟩, ⟨rfl, rfl, rfl⟩, ⟨rfl, rfl, rfl⟩, ⟨rfl, rfl, rfl⟩, ⟨rfl, rfl, rfl⟩,
    ⟨rfl, rfl, rfl⟩⟩

end Contracts

section Encoding

variable {Time Image Metafield : Type}

theorem marshal_keys (cd : Codecs Time Image Metafield)
    (c : CustomCollection Time Image Metafield) :
    (Marshal cd c).keys
      = alwaysKeys ++ (if c.Metafields.len = 0 then [] else ["metafields"]) := by
  by_cases h : c.Metafields.len = 0 <;>
    simp [Marshal, JSON.keys, Field.all, Field.tag, isEmptyValue, alwaysKeys, h]

theorem findField_metafields (key : String) (h : findField key = some Field.Metafields) :
    equalFold "metafields" key = true := by
  unfold findField at h
  split at h
  · rename_i f hf
    have hp := List.find?_some hf
    cases h
    have hk : "metafields" = key := by
      simpa [Field.tag] using hp
    subst hk
    decide
  · have hp := List.find?_some h
    simpa [Field.tag] using hp

theorem decodeField_metafields (cd : Codecs Time Image Metafield) (f : Field) (v : JSON)
    (c : CustomCollection Time Image Metafield) (hf : f ≠ Field.Metafields) :
    (decodeField cd f v c).Metafields = c.Metafields := by
  cases f <;> cases v <;> simp [decodeField] <;> first | contradiction | (split <;> rfl)

theorem foldl_decodeMember_metafields (cd : Codecs Time Image Metafield)
    (members : List (String × JSON)) (c : CustomCollection Time Image Metafield)
    (h : ∀ m ∈ members, equalFold "metafields" m.1 = false) :
    (members.foldl (decodeMember cd) c).Metafields = c.Metafields := by
  induction members generalizing c with
  | nil => rfl
  | cons m ms ih =>
    rw [List.foldl_cons, ih _ (fun x hx => h x (List.mem_cons_of_mem _ hx))]
    have hm := h m (List.mem_cons_self _ _)
    unfold decodeMember
    split
    · rename_i f hf
      apply decodeField_metafields
      intro hfm
      rw [hfm] at hf
      rw [findField_metafields _ hf] at hm
      exact Bool.noConfusion hm
    · rfl

/-- C9 as stated fails in its last part: the object `{"Metafields": [{"key": "color"}]}` has
no `metafields` key, the decoder matches the key `Metafields` with the field tagged
`metafields` case-insensitively, and the collection decoded from it is encoded with the key
`metafields`. -/
theorem reencode_metafields_counterexample :
    "metafields" ∉
      (JSON.obj [("Metafields", JSON.arr [JSON.obj [("key", JSON.str "color")]])]).keys
    ∧ (Unmarshal sampleCodecs
        (JSON.obj [("Metafields", JSON.arr [JSON.obj [("key", JSON.str "color")]])])
        (zeroCollection sampleCodecs)).Metafields = some ["color"]
    ∧ "metafields" ∈
      (Marshal sampleCodecs
        (Unmarshal sampleCodecs
          (JSON.obj [("Metafields", JSON.arr [JSON.obj [("key", JSON.str "color")]])])
          (zeroCollection sampleCodecs))).keys := by
  decide

/-- C9, amended. The object encoded for a collection has the key `metafields` if and only if
its `Metafields` slice has non-zero length, so a nil slice and an empty slice both give no
such key; the other eleven keys are present for every collection. Decoding into a zero
collection an object none of whose keys equals `metafields` up to letter case (the decoder
matches keys case-insensitively), then encoding the result, gives an object without the key
`metafields`. -/
theorem metafields_key_iff_nonempty (cd : Codecs Time Image Metafield) :
    (∀ c : CustomCollection Time Image Metafield,
      "metafields" ∈ (Marshal cd c).keys ↔ c.Metafields.len ≠ 0)
    ∧ (∀ c : CustomCollection Time Image Metafield,
      c.Metafields = none ∨ c.Metafields = some [] → "metafields" ∉ (Marshal cd c).keys)
    ∧ (∀ c : CustomCollection Time Image Metafield,
      ∀ k ∈ ["id", "handle", "title", "updated_at", "body_html", "sort_order",
              "template_suffix", "image", "published", "published_at", "published_scope"],
        k ∈ (Marshal cd c).keys)
    ∧ (∀ members : List (String × JSON),
      (∀ m ∈ members, equalFold "metafields" m.1 = false) →
      "metafields" ∉ (Marshal cd (Unmarshal cd (JSON.obj members) (zeroCollection cd))).keys) := by
  have hiff : ∀ c : CustomCollection Time Image Metafield,
      "metafields" ∈ (Marshal cd c).keys ↔ c.Metafields.len ≠ 0 := by
    intro c
    rw [marshal_keys]
    by_cases h : c.Metafields.len = 0 <;> simp [h, alwaysKeys]
  refine ⟨hiff, ?_, ?_, ?_⟩
  · intro c h
    rw [hiff]
    rcases h with h | h <;> simp [h, Slice.len]
  · intro c k hk
    rw [marshal_keys]
    exact List.mem_append_left _ hk
  · intro members h
    rw [hiff]
    have hm : (Unmarshal cd (JSON.obj members) (zeroCollection cd)).Metafields = none :=
      foldl_decodeMember_metafields cd members (zeroCollection cd) h
    simp [hm, Slice.len]

/-- Witness of `metafields_key_iff_nonempty`: the object `{"id": 7, "title": "Sale"}` and
the sample collection, whose `Metafields` is nil. -/
theorem metafields_key_iff_nonempty_witness :
    (∀ m ∈ [("id", JSON.num 7), ("title", JSON.str "Sale")],
      equalFold "metafields" m.1 = false)
    ∧ "metafields" ∉
      (Marshal sampleCodecs
        (Unmarshal sampleCodecs (JSON.obj [("id", JSON.num 7), ("title", JSON.str "Sale")])
          (zeroCollection sampleCodecs))).keys
    ∧ "metafields" ∉ (Marshal sampleCodecs sampleCollection).keys
    ∧ "image" ∈ (Marshal sampleCodecs sampleCollection).keys :=
  have h : ∀ m ∈ [("id", JSON.num 7), ("title", JSON.str "Sale")],
      equalFold "metafields" m.1 = false := by decide
  ⟨h, (metafields_key_iff_nonempty sampleCodecs).2.2.2 _ h,
    (metafields_key_iff_nonempty sampleCodecs).2.1 sampleCollection (Or.inl rfl),
    (metafields_key_iff_nonempty sampleCodecs).2.2.1 sampleCollection "image" (by decide)⟩

end Encoding

end GoShopify
